import Mathlib

/-!
Verification of the DomainForge DSL core (parser/transformer/validator).

This file shallowly embeds the hand-rolled parse-tree-to-domain-model
transformation of `src/domainforge/core/transformer.py` and the semantic
validator of `src/domainforge/core/interpreter.py`, and proves/refutes the
frozen claims about them.

Modelling conventions:
* A Lark parse tree is `PTree`: either an interior `Tree` node carrying a
  production tag (`data`) and children, or a `Token` carrying a terminal
  type and a value.  Lark `Token`s subclass Python `str`; `hasattr(x,
  "data")` distinguishes `Tree` from `Token`.
* Python `str(x)` on a token yields its value; on a `Tree` it yields the
  `repr` string `Tree('data', [child reprs])` (`pstr` below).  The repr of
  embedded strings is modelled without escape processing, which is exact for
  the identifier/number/quoted-string terminals the grammar produces.
* Python list indexing that the source performs only on grammar-shaped
  trees is totalized with a dummy token default (`pyGet`, `childGet`); on
  every input exercised by a claim the default is never reached.
* Dynamically typed Python scalars (default values) are the closed sum
  `PyVal`; `PyVal.float s` models `float(s)` (the claims only concern the
  classification, not float arithmetic) and `PyVal.tree t` models a raw
  parse subtree returned unconverted.
-/

namespace DomainForge

set_option maxRecDepth 16384

/-- A Lark parse tree: `Tree(data, children)` or `Token(type, value)`. -/
inductive PTree where
  | node (data : String) (children : List PTree)
  | tok (ty : String) (val : String)
deriving Repr

mutual
/-- Decidable equality for parse trees (nested inductive, so written out). -/
def PTree.decEq : (a b : PTree) → Decidable (a = b)
  | .node d1 cs1, .node d2 cs2 =>
    match String.decEq d1 d2 with
    | isFalse h => isFalse (fun hh => by cases hh; exact h rfl)
    | isTrue h =>
      match PTree.decEqList cs1 cs2 with
      | isTrue h2 => isTrue (by rw [h, h2])
      | isFalse h2 => isFalse (fun hh => by cases hh; exact h2 rfl)
  | .node _ _, .tok _ _ => isFalse (fun h => by cases h)
  | .tok _ _, .node _ _ => isFalse (fun h => by cases h)
  | .tok t1 v1, .tok t2 v2 =>
    match String.decEq t1 t2, String.decEq v1 v2 with
    | isTrue h1, isTrue h2 => isTrue (by rw [h1, h2])
    | isFalse h1, _ => isFalse (fun hh => by cases hh; exact h1 rfl)
    | _, isFalse h2 => isFalse (fun hh => by cases hh; exact h2 rfl)

/-- Decidable equality for lists of parse trees. -/
def PTree.decEqList : (a b : List PTree) → Decidable (a = b)
  | [], [] => isTrue rfl
  | [], _ :: _ => isFalse (fun h => by cases h)
  | _ :: _, [] => isFalse (fun h => by cases h)
  | x :: xs, y :: ys =>
    match PTree.decEq x y, PTree.decEqList xs ys with
    | isTrue h1, isTrue h2 => isTrue (by rw [h1, h2])
    | isFalse h1, _ => isFalse (fun hh => by cases hh; exact h1 rfl)
    | _, isFalse h2 => isFalse (fun hh => by cases hh; exact h2 rfl)
end

instance : DecidableEq PTree := PTree.decEq

/-- A dynamically-typed Python scalar value as stored in the model
(default values): int / float / string / bool / None / list, or a raw
parse subtree passed through unconverted. `float s` records the source
text of the FLOAT literal handed to Python `float()`. -/
inductive PyVal where
  | int (n : Int) : PyVal
  | float (s : String) : PyVal
  | str (s : String) : PyVal
  | bool (b : Bool) : PyVal
  | none : PyVal
  | list (l : List PyVal) : PyVal
  | tree (t : PTree) : PyVal
deriving Repr

mutual
/-- Decidable equality for Python values (nested inductive, written out). -/
def PyVal.decEq : (a b : PyVal) → Decidable (a = b)
  | .int a, .int b =>
    match Int.decEq a b with
    | isTrue h => isTrue (by rw [h])
    | isFalse h => isFalse (fun hh => by cases hh; exact h rfl)
  | .float a, .float b =>
    match String.decEq a b with
    | isTrue h => isTrue (by rw [h])
    | isFalse h => isFalse (fun hh => by cases hh; exact h rfl)
  | .str a, .str b =>
    match String.decEq a b with
    | isTrue h => isTrue (by rw [h])
    | isFalse h => isFalse (fun hh => by cases hh; exact h rfl)
  | .bool a, .bool b =>
    match Bool.decEq a b with
    | isTrue h => isTrue (by rw [h])
    | isFalse h => isFalse (fun hh => by cases hh; exact h rfl)
  | .none, .none => isTrue rfl
  | .list a, .list b =>
    match PyVal.decEqList a b with
    | isTrue h => isTrue (by rw [h])
    | isFalse h => isFalse (fun hh => by cases hh; exact h rfl)
  | .tree a, .tree b =>
    match PTree.decEq a b with
    | isTrue h => isTrue (by rw [h])
    | isFalse h => isFalse (fun hh => by cases hh; exact h rfl)
  | .int _, .float _ => isFalse (fun h => by cases h)
  | .int _, .str _ => isFalse (fun h => by cases h)
  | .int _, .bool _ => isFalse (fun h => by cases h)
  | .int _, .none => isFalse (fun h => by cases h)
  | .int _, .list _ => isFalse (fun h => by cases h)
  | .int _, .tree _ => isFalse (fun h => by cases h)
  | .float _, .int _ => isFalse (fun h => by cases h)
  | .float _, .str _ => isFalse (fun h => by cases h)
  | .float _, .bool _ => isFalse (fun h => by cases h)
  | .float _, .none => isFalse (fun h => by cases h)
  | .float _, .list _ => isFalse (fun h => by cases h)
  | .float _, .tree _ => isFalse (fun h => by cases h)
  | .str _, .int _ => isFalse (fun h => by cases h)
  | .str _, .float _ => isFalse (fun h => by cases h)
  | .str _, .bool _ => isFalse (fun h => by cases h)
  | .str _, .none => isFalse (fun h => by cases h)
  | .str _, .list _ => isFalse (fun h => by cases h)
  | .str _, .tree _ => isFalse (fun h => by cases h)
  | .bool _, .int _ => isFalse (fun h => by cases h)
  | .bool _, .float _ => isFalse (fun h => by cases h)
  | .bool _, .str _ => isFalse (fun h => by cases h)
  | .bool _, .none => isFalse (fun h => by cases h)
  | .bool _, .list _ => isFalse (fun h => by cases h)
  | .bool _, .tree _ => isFalse (fun h => by cases h)
  | .none, .int _ => isFalse (fun h => by cases h)
  | .none, .float _ => isFalse (fun h => by cases h)
  | .none, .str _ => isFalse (fun h => by cases h)
  | .none, .bool _ => isFalse (fun h => by cases h)
  | .none, .list _ => isFalse (fun h => by cases h)
  | .none, .tree _ => isFalse (fun h => by cases h)
  | .list _, .int _ => isFalse (fun h => by cases h)
  | .list _, .float _ => isFalse (fun h => by cases h)
  | .list _, .str _ => isFalse (fun h => by cases h)
  | .list _, .bool _ => isFalse (fun h => by cases h)
  | .list _, .none => isFalse (fun h => by cases h)
  | .list _, .tree _ => isFalse (fun h => by cases h)
  | .tree _, .int _ => isFalse (fun h => by cases h)
  | .tree _, .float _ => isFalse (fun h => by cases h)
  | .tree _, .str _ => isFalse (fun h => by cases h)
  | .tree _, .bool _ => isFalse (fun h => by cases h)
  | .tree _, .none => isFalse (fun h => by cases h)
  | .tree _, .list _ => isFalse (fun h => by cases h)

/-- Decidable equality for lists of Python values. -/
def PyVal.decEqList : (a b : List PyVal) → Decidable (a = b)
  | [], [] => isTrue rfl
  | [], _ :: _ => isFalse (fun h => by cases h)
  | _ :: _, [] => isFalse (fun h => by cases h)
  | x :: xs, y :: ys =>
    match PyVal.decEq x y, PyVal.decEqList xs ys with
    | isTrue h1, isTrue h2 => isTrue (by rw [h1, h2])
    | isFalse h1, _ => isFalse (fun hh => by cases hh; exact h1 rfl)
    | _, isFalse h2 => isFalse (fun hh => by cases hh; exact h2 rfl)
end

instance : DecidableEq PyVal := PyVal.decEq

/-- Python `", ".join`-style concatenation: `pyJoin sep [a, b, c] =
a ++ sep ++ b ++ sep ++ c` (mirrors `str.join`). -/
def pyJoin (sep : String) : List String → String
  | [] => ""
  | [x] => x
  | x :: xs => x ++ sep ++ pyJoin sep xs

/-- Python `repr` of a short string (no escape processing; exact for the
identifier / symbol / quoted-string terminals of the DSL grammar). -/
def pyReprStr (s : String) : String := "'" ++ s ++ "'"

mutual
/-- Python `repr` of a Lark tree/token: `Tree('data', [...])` /
`Token('TYPE', 'value')`. -/
def ptreeRepr : PTree → String
  | .node d cs => "Tree(" ++ pyReprStr d ++ ", [" ++ ptreeReprList cs ++ "])"
  | .tok ty v => "Token(" ++ pyReprStr ty ++ ", " ++ pyReprStr v ++ ")"

/-- Comma-separated reprs of a list of parse trees. -/
def ptreeReprList : List PTree → String
  | [] => ""
  | [t] => ptreeRepr t
  | t :: ts => ptreeRepr t ++ ", " ++ ptreeReprList ts
end

/-- Python `str(x)` on a parse-tree value: a `Token` is a `str` equal to its
value; `str` of a `Tree` falls back to `repr`. -/
def pstr : PTree → String
  | .node d cs => ptreeRepr (.node d cs)
  | .tok _ v => v

/-- Totalized `items[i]` on a child list (the source only indexes positions
the grammar guarantees; the dummy default is never reached on those). -/
def pyGet (items : List PTree) (i : Nat) : PTree := items.getD i (.tok "" "")

/-- Totalized `t.children[i]`. -/
def childGet (t : PTree) (i : Nat) : PTree :=
  match t with
  | .node _ cs => pyGet cs i
  | .tok _ _ => .tok "" ""

/-- Python `s[1:-1]` (strip first and last character, e.g. quote removal). -/
def pySlice1m1 (s : String) : String := (s.drop 1).dropRight 1

/-- Accumulate the decimal value of a digit-character list. -/
def digitsToNat : List Char → Nat → Nat
  | [], acc => acc
  | c :: cs, acc => digitsToNat cs (acc * 10 + (c.toNat - 48))

/-- Python `int(s)` on the decimal INT literals the lexer produces
(optionally sign-prefixed digit strings). -/
def pyIntOfString (s : String) : Int :=
  match s.data with
  | '-' :: rest => -(digitsToNat rest 0 : Int)
  | ds => (digitsToNat ds 0 : Int)

/-- Python `s.lower()`; IDENTIFIER tokens are ASCII, for which
per-character lowering is exact. -/
def pyLower (s : String) : String := String.mk (s.data.map Char.toLower)

/-! ## The domain model (src/domainforge/core/models.py) -/

/-- Model class Parameter of models.py: name, type, optional default value. -/
structure Parameter where
  name : String
  type : String
  default_value : Option PyVal := Option.none
deriving DecidableEq, Repr

/-- Model class Property of models.py: name, type string, optional default value,
constraint strings. -/
structure Property where
  name : String
  type : String
  default_value : Option PyVal := Option.none
  constraints : List String := []
deriving DecidableEq, Repr

/-- Model class Method of models.py. -/
structure Method where
  name : String
  visibility : String := "public"
  parameters : List Parameter := []
  return_type : Option String := Option.none
  description : Option String := Option.none
deriving DecidableEq, Repr

/-- Model class ApiEndpoint of models.py. -/
structure ApiEndpoint where
  http_method : String
  path : String
  parameters : List Parameter := []
  return_type : Option String := Option.none
  description : Option String := Option.none
deriving DecidableEq, Repr

/-- Model class UiComponent of models.py. -/
structure UiComponent where
  component_type : String
  parameters : List Parameter := []
  description : Option String := Option.none
deriving DecidableEq, Repr

/-- Model class Relationship of models.py. -/
structure Relationship where
  source_entity : String
  target_entity : String
  relationship_type : String
  description : Option String := Option.none
deriving DecidableEq, Repr

/-- Model class Entity of models.py. -/
structure Entity where
  name : String
  parent : Option String := Option.none
  properties : List Property := []
  methods : List Method := []
  apis : List ApiEndpoint := []
  uis : List UiComponent := []
  relationships : List Relationship := []
deriving DecidableEq, Repr

/-- Model class ValueObject of models.py. -/
structure ValueObject where
  name : String
  properties : List Property := []
deriving DecidableEq, Repr

/-- Model class Event of models.py. -/
structure Event where
  name : String
  properties : List Property := []
deriving DecidableEq, Repr

/-- Model class Service of models.py. -/
structure Service where
  name : String
  methods : List Method := []
  apis : List ApiEndpoint := []
deriving DecidableEq, Repr

/-- Model class Repository of models.py. -/
structure Repository where
  name : String
  methods : List Method := []
deriving DecidableEq, Repr

/-- Model class Role of models.py. -/
structure Role where
  name : String
  properties : List Property := []
deriving DecidableEq, Repr

/-- Model class Module of models.py. -/
structure Module where
  name : String
  entities : List Entity := []
  value_objects : List ValueObject := []
  events : List Event := []
  services : List Service := []
  repositories : List Repository := []
deriving DecidableEq, Repr

/-- Model class BoundedContext of models.py. -/
structure BoundedContext where
  name : String
  entities : List Entity := []
  value_objects : List ValueObject := []
  events : List Event := []
  services : List Service := []
  repositories : List Repository := []
  modules : List Module := []
  roles : List Role := []
deriving DecidableEq, Repr

/-- Model class DomainModel of models.py: the root, an ordered list of contexts. -/
structure DomainModel where
  bounded_contexts : List BoundedContext := []
deriving DecidableEq, Repr

/-! ## The transformer (src/domainforge/core/transformer.py)

The entry point `DomainForgeTransformer.transform` overrides Lark's
bottom-up `Transformer.transform`, so the whole transformation is the
hand-rolled top-down dispatch `start` → `context_definition` →
`entity_definition` / `service_definition` / ... → `property_definition` /
`method_definition` / ..., always receiving *raw* parse subtrees.  The
grammar-callback methods (`simple_type`, `value`, `default_value`, ...) are
consequently never invoked on this path; those of them that the claims
mention are embedded below as the stand-alone functions they are. -/

/-- Method `_extract_type` (transformer.py lines 360-382): recursively
renders a type subtree to a canonical string.  A Lark `Token` is a Python
`str`, so the `isinstance(type_node, str)` branch catches tokens.  Branches
marked unreachable correspond to `IndexError` paths the grammar never
produces; they are totalized with the empty string. -/
def extractType : PTree → String
  | .tok _ v => v
  | .node "simple_type" cs => pstr (pyGet cs 0)
  | .node "generic_type" (c0 :: c1 :: _) => pstr c0 ++ "<" ++ extractType c1 ++ ">"
  | .node "generic_type" _ => ""
  | .node "list_type" (c0 :: _) => "List<" ++ extractType c0 ++ ">"
  | .node "list_type" _ => ""
  | .node "dict_type" (c0 :: c1 :: _) => "Dict<" ++ extractType c0 ++ ":" ++ extractType c1 ++ ">"
  | .node "dict_type" _ => ""
  | .node _ (c0 :: _) => extractType c0
  | .node d [] => pstr (.node d [])

/-- Method `value` (transformer.py lines 581-599): classifies a terminal
into a Python scalar.  Tokens of other types and non-token items are
returned unconverted (`return item`). -/
def value (items : List PTree) : PyVal :=
  match pyGet items 0 with
  | .tok ty v =>
    if ty = "INT" then .int (pyIntOfString v)
    else if ty = "FLOAT" then .float v
    else if ty = "STRING" then .str (pySlice1m1 v)
    else if ty = "IDENTIFIER" then
      if pyLower v = "true" then .bool true
      else if pyLower v = "false" then .bool false
      else if pyLower v = "null" then .none
      else .str v
    else .tree (.tok ty v)
  | t => .tree t

/-- Method `list_value` (transformer.py lines 571-575): returns the *raw*
children of the `value_list` subtree (no element-wise conversion happens on
this path, because Lark's bottom-up callbacks are bypassed). -/
def list_value (items : List PTree) : List PyVal :=
  match items with
  | (.node "value_list" cs) :: _ => cs.map .tree
  | _ => []

/-- Loop over `items[2:]` of `property_definition`: the last
`property_default` node wins (its child is stored via `str(...)`), the last
`property_constraint` node wins (children stored via `str(...)`). -/
def propExtrasLoop : List PTree → Option PyVal → List String → Option PyVal × List String
  | [], d, c => (d, c)
  | (.node "property_default" cs) :: rest, _, c =>
      propExtrasLoop rest (some (.str (pstr (pyGet cs 0)))) c
  | (.node "property_constraint" cs) :: rest, d, _ =>
      propExtrasLoop rest d (cs.map pstr)
  | _ :: rest, d, c => propExtrasLoop rest d c

/-- Method `property_definition` (transformer.py lines 329-358).  Note that
it does *not* call `_extract_type`: it reads `type_def.children[0]` and then
`str(simple_type.children[0])`, and it stores `str(...)` of the raw default
subtree. -/
def property_definition (items : List PTree) : Property :=
  let name := pstr (pyGet items 0)
  let type_str :=
    match pyGet items 1 with
    | .node _ (simple :: _) =>
      match simple with
      | .node _ (c :: _) => pstr c
      | _ => "Any"
    | _ => "Any"
  let extras := propExtrasLoop (items.drop 2) Option.none []
  { name := name, type := type_str, default_value := extras.1, constraints := extras.2 }

/-- Shared shape `str(desc_node.children[0])[1:-1] if hasattr(desc_node,
"children") else str(desc_node)` used for method/relationship/api/ui
descriptions. -/
def descOfDescNode : PTree → String
  | .node _ cs => pySlice1m1 (pstr (pyGet cs 0))
  | .tok _ v => v

/-- Parameter extraction inside `method_definition` (transformer.py lines
409-428): children tagged `parameter` are converted, others skipped; the
parameter type goes through `_extract_type`; a default, when present, is
the raw subtree `param.children[2].children[0]`. -/
def methodParamOfTree (p : PTree) : Option Parameter :=
  match p with
  | .node "parameter" cs =>
    let param_default : Option PyVal :=
      if cs.length > 2 then
        some (match pyGet cs 2 with
          | .node _ cs2 => .tree (pyGet cs2 0)
          | .tok ty v => .tree (.tok ty v))
      else Option.none
    some { name := pstr (pyGet cs 0)
           type := extractType (childGet (pyGet cs 1) 0)
           default_value := param_default }
  | _ => Option.none

/-- Method `method_definition` (transformer.py lines 384-463): the
index-advancing scan over optional visibility, parameter list, return type
and body. -/
def method_definition (items : List PTree) : Method :=
  let vis_rest : String × List PTree :=
    match items with
    | (.node "visibility" vs) :: r => (pstr (pyGet vs 0), r)
    | _ => ("public", items)
  let visibility := vis_rest.1
  let rest0 := vis_rest.2
  let name := pstr (pyGet rest0 0)
  let rest1 := rest0.drop 1
  let par_rest : List Parameter × List PTree :=
    match rest1 with
    | (.node "parameter_list" ps) :: r => (ps.filterMap methodParamOfTree, r)
    | _ => ([], rest1)
  let parameters := par_rest.1
  let rest2 := par_rest.2
  let ret_rest : Option String × List PTree :=
    match rest2 with
    | (.node "return_type" rcs) :: r =>
        (some (extractType (childGet (pyGet rcs 0) 0)), r)
    | _ => (Option.none, rest2)
  let return_type := ret_rest.1
  let rest3 := ret_rest.2
  let description : Option String :=
    match rest3 with
    | (.node "method_body" (d :: _)) :: _ => some (descOfDescNode d)
    | _ => Option.none
  { name := name, visibility := visibility, parameters := parameters
    return_type := return_type, description := description }

/-- Method `api_definition` (transformer.py lines 650-711).  The
`api_params` branch casts raw parameter subtrees to `Parameter` without
conversion; pydantic rejects those at `ApiEndpoint` construction, so a
non-empty cast list raises in Python — the claims never reach it and the
branch is totalized to the empty list (the index still advances). -/
def api_definition (items : List PTree) : ApiEndpoint :=
  let http_method := pstr (pyGet items 0)
  let path := pySlice1m1 (pstr (pyGet items 1))
  let rest0 := items.drop 2
  let rest1 :=
    match rest0 with
    | (.node "api_params" _) :: r => r
    | _ => rest0
  let ret_rest : Option String × List PTree :=
    match rest1 with
    | (.node "api_return" rcs) :: r =>
        (some (match pyGet rcs 0 with
               | .node _ cs => pstr (pyGet cs 0)
               | .tok _ v => v), r)
    | _ => (Option.none, rest1)
  let description : Option String :=
    match ret_rest.2 with
    | (.node "api_desc" (d :: _)) :: _ => some (descOfDescNode d)
    | _ => Option.none
  { http_method := http_method, path := path, parameters := []
    return_type := ret_rest.1, description := description }

/-- Method `ui_definition` (transformer.py lines 725-766).  As with
`api_definition`, the `ui_params` branch assigns raw subtrees as
parameters, which pydantic rejects; totalized to the empty list. -/
def ui_definition (items : List PTree) : UiComponent :=
  let component_type := pstr (pyGet items 0)
  let rest0 := items.drop 1
  let rest1 :=
    match rest0 with
    | (.node "ui_params" _) :: r => r
    | _ => rest0
  let description : Option String :=
    match rest1 with
    | (.node "ui_desc" (d :: _)) :: _ => some (descOfDescNode d)
    | _ => Option.none
  { component_type := component_type, parameters := [], description := description }

/-- Source/target extraction of `relationship_definition`:
`items[k].children[0] if hasattr(items[k], "children") else str(items[k])`.
The child is an IDENTIFIER token (a Python `str`). -/
def relStrOf : PTree → String
  | .node _ cs => pstr (pyGet cs 0)
  | .tok _ v => v

/-- Method `relationship_definition` (transformer.py lines 601-630). -/
def relationship_definition (items : List PTree) : Relationship :=
  let description : Option String :=
    match items.drop 3 with
    | (.node "relationship_desc" (d :: _)) :: _ => some (descOfDescNode d)
    | _ => Option.none
  { source_entity := relStrOf (pyGet items 0)
    target_entity := relStrOf (pyGet items 2)
    relationship_type := pstr (pyGet items 1)
    description := description }

/-- Result of transforming one entity child (`entity_children` returns a
mixed list; `isinstance` dispatch in `entity_definition` sorts it). -/
inductive EChild where
  | prop (p : Property)
  | meth (m : Method)
  | api (a : ApiEndpoint)
  | ui (u : UiComponent)
  | rel (r : Relationship)
  | raw (t : PTree)

/-- Dispatch of one item in `entity_children` (transformer.py lines
172-187): recognized productions are transformed, other `Tree` nodes are
*skipped*, non-`Tree` items (tokens) are appended raw.  No branch ever
produces a `Relationship`. -/
def entityChildOf (t : PTree) : Option EChild :=
  match t with
  | .node "property_definition" cs => some (.prop (property_definition cs))
  | .node "ui_definition" cs => some (.ui (ui_definition cs))
  | .node "api_definition" cs => some (.api (api_definition cs))
  | .node "method_definition" cs => some (.meth (method_definition cs))
  | .node _ _ => Option.none
  | .tok ty v => some (.raw (.tok ty v))

/-- Method `entity_children` (transformer.py lines 172-187). -/
def entity_children (items : List PTree) : List EChild :=
  items.filterMap entityChildOf

/-- Method `entity_definition` (transformer.py lines 835-887): name,
optional `entity_inheritance` clause, then `isinstance` partition of the
transformed children. -/
def entity_definition (items : List PTree) : Entity :=
  let name := pstr (pyGet items 0)
  let parent_children : Option String × Option PTree :=
    match items with
    | _ :: (.node "entity_inheritance" ics) :: rest =>
        (some (pstr (pyGet ics 0)), rest.head?)
    | _ :: c :: _ => (Option.none, some c)
    | _ => (Option.none, Option.none)
  let children :=
    match parent_children.2 with
    | some (.node "entity_children" cs) => entity_children cs
    | _ => []
  { name := name
    parent := parent_children.1
    properties := children.filterMap (fun c => match c with | .prop p => some p | _ => Option.none)
    methods := children.filterMap (fun c => match c with | .meth m => some m | _ => Option.none)
    apis := children.filterMap (fun c => match c with | .api a => some a | _ => Option.none)
    uis := children.filterMap (fun c => match c with | .ui u => some u | _ => Option.none)
    relationships := children.filterMap (fun c => match c with | .rel r => some r | _ => Option.none) }

/-- Result of transforming one service child. -/
inductive SChild where
  | meth (m : Method)
  | api (a : ApiEndpoint)
  | raw (t : PTree)

/-- Dispatch of one item in `service_children` (transformer.py lines
249-260). -/
def serviceChildOf (t : PTree) : Option SChild :=
  match t with
  | .node "method_definition" cs => some (.meth (method_definition cs))
  | .node "api_definition" cs => some (.api (api_definition cs))
  | .node _ _ => Option.none
  | .tok ty v => some (.raw (.tok ty v))

/-- Method `service_definition` (transformer.py lines 219-247). -/
def service_definition (items : List PTree) : Service :=
  let name := pstr (pyGet items 0)
  let children :=
    match items with
    | _ :: (.node "service_children" cs) :: _ => cs.filterMap serviceChildOf
    | _ => []
  { name := name
    methods := children.filterMap (fun c => match c with | .meth m => some m | _ => Option.none)
    apis := children.filterMap (fun c => match c with | .api a => some a | _ => Option.none) }

/-- Method `value_object_definition` (transformer.py lines 193-204):
`isinstance(item, Property)` never holds for the raw parse subtrees in
`items[1:]`, so the property list is always empty on this path. -/
def value_object_definition (items : List PTree) : ValueObject :=
  { name := pstr (pyGet items 0), properties := [] }

/-- Method `event_definition` (transformer.py lines 206-217); same
always-empty `isinstance` filter as `value_object_definition`. -/
def event_definition (items : List PTree) : Event :=
  { name := pstr (pyGet items 0), properties := [] }

/-- Method `repository_definition` (transformer.py lines 262-273); same
always-empty `isinstance` filter. -/
def repository_definition (items : List PTree) : Repository :=
  { name := pstr (pyGet items 0), methods := [] }

/-- Method `role_definition` (transformer.py lines 316-327); same
always-empty `isinstance` filter. -/
def role_definition (items : List PTree) : Role :=
  { name := pstr (pyGet items 0), properties := [] }

/-- Method `module_definition` (transformer.py lines 275-310): the contents
are raw parse subtrees, so every `isinstance` check against a model class
fails and all five lists stay empty. -/
def module_definition (items : List PTree) : Module :=
  { name := pstr (pyGet items 0) }

/-- Inner loop of the relationship-attachment step (transformer.py lines
816-821): scan the entity list for the first entity whose name equals the
relationship's source and append the relationship there (`break`); leave
the list unchanged when no entity matches. -/
def attachRel : List Entity → Relationship → List Entity
  | [], _ => []
  | e :: es, rel =>
    if e.name = rel.source_entity then
      { e with relationships := e.relationships ++ [rel] } :: es
    else
      e :: attachRel es rel

/-- Outer loop of the relationship-attachment step (transformer.py lines
815-821). -/
def attachRels (entities : List Entity) (rels : List Relationship) : List Entity :=
  rels.foldl attachRel entities

/-- Dispatch of one `context_children` item to `entity_definition`. -/
def entityOfTree : PTree → Option Entity
  | .node "entity_definition" cs => some (entity_definition cs)
  | _ => Option.none

/-- Dispatch of one `context_children` item to `relationship_definition`. -/
def relationshipOfTree : PTree → Option Relationship
  | .node "relationship_definition" cs => some (relationship_definition cs)
  | _ => Option.none

/-- Dispatch of one `context_children` item to `value_object_definition`. -/
def valueObjectOfTree : PTree → Option ValueObject
  | .node "value_object_definition" cs => some (value_object_definition cs)
  | _ => Option.none

/-- Dispatch of one `context_children` item to `event_definition`. -/
def eventOfTree : PTree → Option Event
  | .node "event_definition" cs => some (event_definition cs)
  | _ => Option.none

/-- Dispatch of one `context_children` item to `service_definition`. -/
def serviceOfTree : PTree → Option Service
  | .node "service_definition" cs => some (service_definition cs)
  | _ => Option.none

/-- Dispatch of one `context_children` item to `repository_definition`. -/
def repositoryOfTree : PTree → Option Repository
  | .node "repository_definition" cs => some (repository_definition cs)
  | _ => Option.none

/-- Dispatch of one `context_children` item to `module_definition`. -/
def moduleOfTree : PTree → Option Module
  | .node "module_definition" cs => some (module_definition cs)
  | _ => Option.none

/-- Dispatch of one `context_children` item to `role_definition`. -/
def roleOfTree : PTree → Option Role
  | .node "role_definition" cs => some (role_definition cs)
  | _ => Option.none

/-- Method `context_definition` (transformer.py lines 777-832): name, the
`context_children` container, one dispatch loop per production kind, then
relationship attachment. -/
def context_definition (ctx : List PTree) : BoundedContext :=
  let name := pstr (pyGet ctx 0)
  let contents :=
    match ctx with
    | _ :: (.node "context_children" cs) :: _ => cs
    | _ => []
  let entities := contents.filterMap entityOfTree
  let relationships := contents.filterMap relationshipOfTree
  { name := name
    entities := attachRels entities relationships
    value_objects := contents.filterMap valueObjectOfTree
    events := contents.filterMap eventOfTree
    services := contents.filterMap serviceOfTree
    repositories := contents.filterMap repositoryOfTree
    modules := contents.filterMap moduleOfTree
    roles := contents.filterMap roleOfTree }

/-- Dispatch of one `start` item to `context_definition`. -/
def contextOfTree : PTree → Option BoundedContext
  | .node "context_definition" cs => some (context_definition cs)
  | _ => Option.none

/-- Method `start` (transformer.py lines 44-55): keep the
`context_definition` children. -/
def start (items : List PTree) : DomainModel :=
  ⟨items.filterMap contextOfTree⟩

/-- Method `transform` (transformer.py lines 36-42): the overriding entry
point; a non-`start` tree is wrapped in a singleton list. -/
def transform (t : PTree) : DomainModel :=
  match t with
  | .node "start" cs => start cs
  | other => start [other]

/-- State of a `DomainForgeTransformer` instance: the class declares no
`__init__` and no method assigns any instance attribute, so the instance
carries no mutable state at all. -/
structure TransformerState where
deriving DecidableEq, Repr

/-- Call of `transform` on an instance: the instance state is read by no
method, so the result depends only on the tree and the state is returned
unchanged. -/
def transformRun (st : TransformerState) (t : PTree) : TransformerState × DomainModel :=
  (st, transform t)

/-- Function `parse_domain_model` (parser.py lines 143-162) with the Lark
parsing step abstracted: a fresh transformer instance is constructed for
each call and applied to the parse tree of the text. -/
def pipeline (parse : String → PTree) (text : String) : DomainModel :=
  (transformRun {} (parse text)).2

/-! ## The validator (src/domainforge/core/interpreter.py) -/

/-- The `defined_names` Python dict: insertion-ordered association list;
only key membership is ever observed. -/
abbrev PyDict := List (String × String)

/-- Python `name in defined_names`. -/
def dictContains (d : PyDict) (k : String) : Bool :=
  d.any (fun p => p.1 = k)

/-- Python `defined_names[name] = kind` (overwrite or append). -/
def dictInsert (d : PyDict) (k v : String) : PyDict :=
  if dictContains d k then
    d.map (fun p => if p.1 = k then (k, v) else p)
  else
    d ++ [(k, v)]

/-- One registration loop of `_validate_contexts` (interpreter.py lines
139-168): for each name, append a duplicate error when the name is already
registered, then register it under `kind`. -/
def registerLoop (mkErr : String → String) (kind : String) :
    PyDict → List String → List String → PyDict × List String
  | names, errors, [] => (names, errors)
  | names, errors, n :: rest =>
    let errors := if dictContains names n then errors ++ [mkErr n] else errors
    registerLoop mkErr kind (dictInsert names n kind) errors rest

/-- Loop body of `_validate_contexts` (interpreter.py lines 122-168): one
shared name registry threaded across all contexts; per context the context
name, then entity, value-object, service and repository names are
registered, each duplicate appending one error. -/
def validateContextsLoop : PyDict → List String → List BoundedContext → PyDict × List String
  | names, errors, [] => (names, errors)
  | names, errors, ctx :: rest =>
    let errors :=
      if dictContains names ctx.name then
        errors ++ ["Duplicate bounded context name: " ++ ctx.name]
      else errors
    let names := dictInsert names ctx.name "context"
    let st1 := registerLoop
      (fun n => "Duplicate entity name in context " ++ ctx.name ++ ": " ++ n)
      "entity" names errors (ctx.entities.map (fun e => e.name))
    let st2 := registerLoop
      (fun n => "Duplicate value object name in context " ++ ctx.name ++ ": " ++ n)
      "value_object" st1.1 st1.2 (ctx.value_objects.map (fun v => v.name))
    let st3 := registerLoop
      (fun n => "Duplicate service name in context " ++ ctx.name ++ ": " ++ n)
      "service" st2.1 st2.2 (ctx.services.map (fun s => s.name))
    let st4 := registerLoop
      (fun n => "Duplicate repository name in context " ++ ctx.name ++ ": " ++ n)
      "repository" st3.1 st3.2 (ctx.repositories.map (fun r => r.name))
    validateContextsLoop st4.1 st4.2 rest

/-- Method `_validate_contexts` (interpreter.py lines 122-168): the errors
it appends to the caller's list. -/
def validateContexts (m : DomainModel) : List String :=
  (validateContextsLoop [] [] m.bounded_contexts).2

/-- First pass of `_validate_entities` (interpreter.py lines 181-184): the
registry of all entity names across all contexts. -/
def entityRegistry (m : DomainModel) : PyDict :=
  m.bounded_contexts.foldl
    (fun names ctx => ctx.entities.foldl (fun ns e => dictInsert ns e.name "entity") names)
    []

/-- Property loop of `_validate_entities` (interpreter.py lines 189-195):
`property_names` set threading; a duplicate appends one error, the name is
added regardless. -/
def checkProps (ename : String) : List String → List String → List Property → List String × List String
  | seen, errors, [] => (seen, errors)
  | seen, errors, p :: rest =>
    let errors :=
      if seen.contains p.name then
        errors ++ ["Duplicate property name in entity " ++ ename ++ ": " ++ p.name]
      else errors
    checkProps ename (p.name :: seen) errors rest

/-- Relationship loop of `_validate_entities` (interpreter.py lines
198-203): an unknown target appends one error. -/
def checkRels (registry : PyDict) : List String → List Relationship → List String
  | errors, [] => errors
  | errors, r :: rest =>
    let errors :=
      if dictContains registry r.target_entity then errors
      else errors ++ ["Unknown target entity in relationship: " ++ r.target_entity]
    checkRels registry errors rest

/-- Per-entity body of the second pass of `_validate_entities`. -/
def checkEntity (registry : PyDict) (errors : List String) (e : Entity) : List String :=
  checkRels registry (checkProps e.name [] errors e.properties).2 e.relationships

/-- Method `_validate_entities` (interpreter.py lines 170-203): the errors
it appends to the caller's list. -/
def validateEntities (m : DomainModel) : List String :=
  let registry := entityRegistry m
  m.bounded_contexts.foldl
    (fun errors ctx => ctx.entities.foldl (checkEntity registry) errors)
    []

/-- The combined error list of `_validate_model` (interpreter.py lines
98-120): both passes append to one shared list. -/
def collectErrors (m : DomainModel) : List String :=
  validateContexts m ++ validateEntities m

/-- Method `_validate_model` (interpreter.py lines 98-120) as seen by
`interpret`: raise `ValueError` with all messages joined when any error was
collected, otherwise the (unmodified) model flows on. -/
def validateModel (m : DomainModel) : Except String DomainModel :=
  let errors := collectErrors m
  if errors = [] then .ok m
  else .error ("Model validation failed:\n" ++ pyJoin "\n" errors)

/-- Substring containment (Python `in` on `str`), via char lists. -/
def strContains (s pat : String) : Prop := pat.data <:+: s.data

instance (s pat : String) : Decidable (strContains s pat) :=
  List.decidableInfix pat.data s.data

/-- The unknown-target error message of `_validate_entities`. -/
def unknownTargetMsg (t : String) : String :=
  "Unknown target entity in relationship: " ++ t

/-! ## Concrete inputs for the claims

Parse-tree shapes follow the grammar (kept, with explicit tree structure,
in `src/tests/unit/test_grammar.py`; `src/tests/unit/test_transformer.py`
feeds exactly these shapes to the transformer). -/

/-- Parse subtree of a simple property `n : ty`. -/
def propTree (n ty : String) : PTree :=
  .node "property_definition" [.tok "IDENTIFIER" n,
    .node "type_definition" [.node "simple_type" [.tok "IDENTIFIER" ty]]]

/-- Parse tree of
`@Context { #Entity1 { name: String } #Entity2 { description: String } Entity1 -> Entity2 }`. -/
def c1Tree : PTree :=
  .node "start" [.node "context_definition" [.tok "IDENTIFIER" "Context",
    .node "context_children" [
      .node "entity_definition" [.tok "IDENTIFIER" "Entity1",
        .node "entity_children" [propTree "name" "String"]],
      .node "entity_definition" [.tok "IDENTIFIER" "Entity2",
        .node "entity_children" [propTree "description" "String"]],
      .node "relationship_definition" [
        .node "source_entity" [.tok "IDENTIFIER" "Entity1"],
        .tok "RELATIONSHIP_SYMBOL" "->",
        .node "target_entity" [.tok "IDENTIFIER" "Entity2"]]]]]

/-- Parse tree of `@Ctx2 { #E { p: Custom<Inner> } }` (a generic-typed
property). -/
def c2Tree : PTree :=
  .node "start" [.node "context_definition" [.tok "IDENTIFIER" "Ctx2",
    .node "context_children" [
      .node "entity_definition" [.tok "IDENTIFIER" "E",
        .node "entity_children" [
          .node "property_definition" [.tok "IDENTIFIER" "p",
            .node "type_definition" [.node "generic_type"
              [.tok "IDENTIFIER" "Custom", .tok "IDENTIFIER" "Inner"]]]]]]]]

/-- Parse tree of `@Ctx3 { #E { count: Int = 5 } }` (a property with a
default value). -/
def c3Tree : PTree :=
  .node "start" [.node "context_definition" [.tok "IDENTIFIER" "Ctx3",
    .node "context_children" [
      .node "entity_definition" [.tok "IDENTIFIER" "E",
        .node "entity_children" [
          .node "property_definition" [.tok "IDENTIFIER" "count",
            .node "type_definition" [.node "simple_type" [.tok "IDENTIFIER" "Int"]],
            .node "property_default" [.node "default_value" [.tok "INT" "5"]]]]]]]]

/-- Parse tree of `@Context { >>Service { doSomething(param: String): Void } }`. -/
def c8Tree : PTree :=
  .node "start" [.node "context_definition" [.tok "IDENTIFIER" "Context",
    .node "context_children" [
      .node "service_definition" [.tok "IDENTIFIER" "Service",
        .node "service_children" [
          .node "method_definition" [.tok "IDENTIFIER" "doSomething",
            .node "parameter_list" [
              .node "parameter" [.tok "IDENTIFIER" "param",
                .node "type_definition" [.node "simple_type" [.tok "IDENTIFIER" "String"]]]],
            .node "return_type" [.node "type_definition"
              [.node "simple_type" [.tok "IDENTIFIER" "Void"]]]]]]]]]

/-- Parse tree of `@C10 { #A { } #B { } A -> B  Ghost -> A }` (one
attachable and one dropped relationship), for evaluating the attachment
invariant. -/
def c10Tree : PTree :=
  .node "start" [.node "context_definition" [.tok "IDENTIFIER" "C10",
    .node "context_children" [
      .node "entity_definition" [.tok "IDENTIFIER" "A", .node "entity_children" []],
      .node "entity_definition" [.tok "IDENTIFIER" "B", .node "entity_children" []],
      .node "relationship_definition" [
        .node "source_entity" [.tok "IDENTIFIER" "A"],
        .tok "RELATIONSHIP_SYMBOL" "->",
        .node "target_entity" [.tok "IDENTIFIER" "B"]],
      .node "relationship_definition" [
        .node "source_entity" [.tok "IDENTIFIER" "Ghost"],
        .tok "RELATIONSHIP_SYMBOL" "->",
        .node "target_entity" [.tok "IDENTIFIER" "A"]]]]]

/-- An entity with the given name and no other content. -/
def mkEntity (n : String) : Entity :=
  { name := n }

/-- A model whose single bounded context `c` holds `n` entities all named
`e` (the duplicate-name scenario of the spec's testable property). -/
def dupNameModel (c e : String) (n : Nat) : DomainModel :=
  ⟨[{ name := c, entities := List.replicate n (mkEntity e) }]⟩

/-- Witness entities/relationships for the attachment-step claims. -/
def wEntA : Entity := mkEntity "A"

/-- Second witness entity. -/
def wEntB : Entity := mkEntity "B"

/-- A relationship whose source matches no witness entity. -/
def wRelX : Relationship := ⟨"X", "Y", "->", Option.none⟩

/-- A relationship whose source is the second witness entity. -/
def wRelB : Relationship := ⟨"B", "A", "->", Option.none⟩

/-- A model with three simultaneous violations: a duplicate entity name, a
duplicate property name, and an unknown relationship target. -/
def c6Model : DomainModel :=
  ⟨[{ name := "Ctx"
      entities := [
        { name := "E"
          properties := [⟨"p", "String", Option.none, []⟩, ⟨"p", "Int", Option.none, []⟩]
          relationships := [⟨"E", "Ghost", "->", Option.none⟩] },
        { name := "E" }] }]⟩

/-- A model with one dangling and one resolvable relationship, for the
unknown-target witness. -/
def c5Model : DomainModel :=
  ⟨[{ name := "C5"
      entities := [
        { name := "E1"
          relationships := [⟨"E1", "Phantom", "->", Option.none⟩,
                            ⟨"E1", "E2", "=>", Option.none⟩] },
        { name := "E2" }] }]⟩

/-- A model with a single duplicate-name violation, for the C6 witness. -/
def w6Model : DomainModel :=
  ⟨[{ name := "W", entities := [mkEntity "D", mkEntity "D"] }]⟩

/-- The relationship attached in `c10Tree`. -/
def c10Rel : Relationship := ⟨"A", "B", "->", Option.none⟩

/-- The first entity of `c10Tree` after transformation. -/
def c10Entity : Entity :=
  { name := "A", relationships := [c10Rel] }

/-- The bounded context of `c10Tree` after transformation. -/
def c10Ctx : BoundedContext :=
  { name := "C10", entities := [c10Entity, mkEntity "B"] }

/-! ## Theorems -/

/-- The attachment scan leaves the entity list unchanged when no entity
name matches the relationship's source. -/
theorem attachRel_no_match (es : List Entity) (r : Relationship)
    (h : ∀ e ∈ es, e.name ≠ r.source_entity) : attachRel es r = es := by
  induction es with
  | nil => rfl
  | cons e es ih =>
    simp only [attachRel]
    rw [if_neg (h e (List.mem_cons_self e es)), ih (fun e' he' => h e' (List.mem_cons_of_mem e he'))]

/-- The attachment scan appends the relationship to the first entity whose
name equals the source and touches nothing else. -/
theorem attachRel_first_match (pre post : List Entity) (e : Entity) (r : Relationship)
    (hpre : ∀ e' ∈ pre, e'.name ≠ r.source_entity) (he : e.name = r.source_entity) :
    attachRel (pre ++ e :: post) r =
      pre ++ { e with relationships := e.relationships ++ [r] } :: post := by
  induction pre with
  | nil => simp only [List.nil_append, attachRel, if_pos he]
  | cons p pre ih =>
    simp only [List.cons_append, attachRel]
    rw [if_neg (hpre p (List.mem_cons_self p pre))]
    exact congrArg (fun l => p :: l) (ih (fun e' he' => hpre e' (List.mem_cons_of_mem p he')))

/-- C1: after transformation, each context-scope relationship is appended
to the relationships list of the first entity of the context whose name
equals the relationship's `source_entity` (first match wins), and a
relationship with no matching entity is silently dropped (the entity list
is unchanged, so it appears in no entity and no error arises); on the
input `@Context { #Entity1 { name: String } #Entity2 { description: String }
Entity1 -> Entity2 }` the model has two entities and `Entity1.relationships`
is exactly one Relationship `("Entity1", "Entity2", "->")`. -/
theorem C1_context_relationship_attachment :
    (∀ (es : List Entity) (r : Relationship),
        (∀ e ∈ es, e.name ≠ r.source_entity) → attachRel es r = es) ∧
    (∀ (pre post : List Entity) (e : Entity) (r : Relationship),
        (∀ e' ∈ pre, e'.name ≠ r.source_entity) → e.name = r.source_entity →
        attachRel (pre ++ e :: post) r =
          pre ++ { e with relationships := e.relationships ++ [r] } :: post) ∧
    transform c1Tree =
      ⟨[⟨"Context",
         [⟨"Entity1", Option.none, [⟨"name", "String", Option.none, []⟩], [], [], [],
            [⟨"Entity1", "Entity2", "->", Option.none⟩]⟩,
          ⟨"Entity2", Option.none, [⟨"description", "String", Option.none, []⟩], [], [], [], []⟩],
         [], [], [], [], [], []⟩]⟩ :=
  ⟨attachRel_no_match, attachRel_first_match, rfl⟩

/-- Witness for C1 at concrete inputs: a relationship sourced at `X`
matches neither entity and is dropped; one sourced at `B` lands on the
first entity named `B`. -/
theorem C1_context_relationship_attachment_witness :
    attachRel [wEntA] wRelX = [wEntA] ∧
    attachRel ([wEntA] ++ wEntB :: []) wRelB =
      [wEntA] ++ { wEntB with relationships := wEntB.relationships ++ [wRelB] } :: [] :=
  ⟨C1_context_relationship_attachment.1 [wEntA] wRelX (by decide),
   C1_context_relationship_attachment.2.1 [wEntA] [] wEntB wRelB (by decide) (by decide)⟩

/-- C2 counterexample: for the declared property type `Custom<Inner>` the
canonical rendering is `Custom<Inner>`, but the type string stored on the
transformed Property is only `Custom`. -/
theorem C2_counterexample :
    transform c2Tree =
      ⟨[⟨"Ctx2", [⟨"E", Option.none, [⟨"p", "Custom", Option.none, []⟩], [], [], [], []⟩],
         [], [], [], [], [], []⟩]⟩ ∧
    extractType (.node "generic_type" [.tok "IDENTIFIER" "Custom", .tok "IDENTIFIER" "Inner"]) =
      "Custom<Inner>" ∧
    ("Custom" : String) ≠ "Custom<Inner>" :=
  ⟨rfl, rfl, by decide⟩

/-- C2 amended: `_extract_type` does render every supported type shape into
the canonical string form (and behaves recursively on wrapped type
definitions), but `property_definition` does not use it — the type stored
on a Property is canonical only for bare identifiers, while a generic
application `Outer<Inner>` stores just `Outer`. -/
theorem C2_type_rendering :
    (∀ s : String, extractType (.node "simple_type" [.tok "IDENTIFIER" s]) = s) ∧
    (∀ outer inner : String,
        extractType (.node "generic_type" [.tok "IDENTIFIER" outer, .tok "IDENTIFIER" inner]) =
          outer ++ "<" ++ inner ++ ">") ∧
    (∀ s : String,
        extractType (.node "list_type"
          [.node "type_definition" [.node "simple_type" [.tok "IDENTIFIER" s]]]) =
          "List<" ++ s ++ ">") ∧
    (∀ k v : String,
        extractType (.node "dict_type"
          [.node "type_definition" [.node "simple_type" [.tok "IDENTIFIER" k]],
           .node "type_definition" [.node "simple_type" [.tok "IDENTIFIER" v]]]) =
          "Dict<" ++ k ++ ":" ++ v ++ ">") ∧
    (∀ t : PTree, extractType (.node "list_type" [.node "type_definition" [t]]) =
        "List<" ++ extractType t ++ ">") ∧
    (∀ n s : String,
        (property_definition [.tok "IDENTIFIER" n,
          .node "type_definition" [.node "simple_type" [.tok "IDENTIFIER" s]]]).type = s) ∧
    (∀ n outer inner : String,
        (property_definition [.tok "IDENTIFIER" n,
          .node "type_definition" [.node "generic_type"
            [.tok "IDENTIFIER" outer, .tok "IDENTIFIER" inner]]]).type = outer) :=
  ⟨fun _ => rfl, fun _ _ => rfl, fun _ => rfl, fun _ _ => rfl, fun _ => rfl,
   fun _ _ => rfl, fun _ _ _ => rfl⟩

/-- C3 counterexample: for the property `count: Int = 5` the classified
value would be the integer 5 (`value` classifies the INT token thus), but
the default stored on the transformed Property is the string `str()` of the
raw default subtree — a different representation. -/
theorem C3_counterexample :
    transform c3Tree =
      ⟨[⟨"Ctx3", [⟨"E", Option.none,
          [⟨"count", "Int",
            some (.str "Tree('default_value', [Token('INT', '5')])"), []⟩],
          [], [], [], []⟩], [], [], [], [], [], []⟩]⟩ ∧
    value [.tok "INT" "5"] = .int 5 ∧
    PyVal.str "Tree('default_value', [Token('INT', '5')])" ≠ PyVal.int 5 :=
  ⟨rfl, by decide, by decide⟩

/-- C3 amended: the stand-alone `value` method classifies scalar terminals
exactly as described (INT to int, FLOAT to float, STRING with quotes
stripped, case-insensitive true/false/null identifiers, identifier
passthrough), but a list literal is returned as the raw subtree rather
than recursively element-wise, and `property_definition` never calls
`value`: the stored default is the `str()` of the raw default subtree. -/
theorem C3_value_classification :
    (∀ s : String, value [.tok "INT" s] = .int (pyIntOfString s)) ∧
    (∀ s : String, value [.tok "FLOAT" s] = .float s) ∧
    (∀ s : String, value [.tok "STRING" s] = .str (pySlice1m1 s)) ∧
    (∀ s : String, pyLower s = "true" → value [.tok "IDENTIFIER" s] = .bool true) ∧
    (∀ s : String, pyLower s = "false" → value [.tok "IDENTIFIER" s] = .bool false) ∧
    (∀ s : String, pyLower s = "null" → value [.tok "IDENTIFIER" s] = .none) ∧
    (∀ s : String, pyLower s ≠ "true" → pyLower s ≠ "false" → pyLower s ≠ "null" →
        value [.tok "IDENTIFIER" s] = .str s) ∧
    (∀ cs : List PTree, value [.node "list_value" cs] = .tree (.node "list_value" cs)) ∧
    (∀ (n : String) (tyT dv : PTree),
        (property_definition [.tok "IDENTIFIER" n, tyT,
          .node "property_default" [dv]]).default_value = some (.str (pstr dv))) := by
  refine ⟨fun s => rfl, fun s => rfl, fun s => rfl, ?_, ?_, ?_, ?_, fun cs => rfl, ?_⟩
  · intro s h; simp [value, pyGet, h]
  · intro s h; simp [value, pyGet, h]
  · intro s h; simp [value, pyGet, h]
  · intro s h1 h2 h3; simp [value, pyGet, h1, h2, h3]
  · intro n tyT dv
    cases tyT with
    | node d cs => rfl
    | tok ty v => rfl

/-- Witness for C3 at concrete inputs: the case-insensitive boolean and
null classifications. -/
theorem C3_value_classification_witness :
    (pyLower "TRUE" = "true" ∧ value [.tok "IDENTIFIER" "TRUE"] = .bool true) ∧
    (pyLower "Null" = "null" ∧ value [.tok "IDENTIFIER" "Null"] = .none) :=
  ⟨⟨by decide, C3_value_classification.2.2.2.1 "TRUE" (by decide)⟩,
   ⟨by decide, C3_value_classification.2.2.2.2.2.1 "Null" (by decide)⟩⟩

/-- C8: the method definition `doSomething(param: String): Void` inside a
service transforms to a Method named doSomething with exactly one
Parameter (`param` of type String) and return type Void; and every method
definition lacking a leading visibility node gets visibility `public`. -/
theorem C8_service_method_transformation :
    transform c8Tree =
      ⟨[⟨"Context", [], [], [],
         [⟨"Service",
           [⟨"doSomething", "public", [⟨"param", "String", Option.none⟩],
             some "Void", Option.none⟩], []⟩],
         [], [], []⟩]⟩ ∧
    (∀ items : List PTree, (∀ vs r, items ≠ .node "visibility" vs :: r) →
        (method_definition items).visibility = "public") := by
  refine ⟨rfl, ?_⟩
  intro items h
  unfold method_definition
  split
  case _ vs r => exact absurd rfl (h vs r)
  case _ => rfl

/-- Witness for C8: a bare method definition (no visibility prefix) gets
visibility `public`. -/
theorem C8_service_method_transformation_witness :
    (method_definition [.tok "IDENTIFIER" "go"]).visibility = "public" :=
  C8_service_method_transformation.2 [.tok "IDENTIFIER" "go"]
    (fun _ _ hh => PTree.noConfusion (List.cons.inj hh).1)

/-- C9: with the Lark parsing step abstracted as a function of the source
text (the grammar is deterministic, §4.2), the pipeline result is a pure
function of the text: a run started from any transformer-instance state
returns the same model as the fresh-instance pipeline, two runs from
arbitrary instance states agree, and a run leaves the instance state
unchanged — so nothing is carried between invocations. -/
theorem C9_pipeline_deterministic :
    ∀ (parse : String → PTree) (text : String) (s₁ s₂ : TransformerState),
      pipeline parse text = (transformRun s₁ (parse text)).2 ∧
      (transformRun s₁ (parse text)).2 = (transformRun s₂ (parse text)).2 ∧
      (transformRun s₁ (parse text)).1 = s₁ :=
  fun _ _ _ _ => ⟨rfl, rfl, rfl⟩

/-- No entity child dispatch ever produces a Relationship: relationship
productions inside an entity body are skipped. -/
theorem entityChildOf_no_rel (t : PTree) (r : Relationship) :
    entityChildOf t ≠ some (.rel r) := by
  cases t with
  | tok ty v => simp [entityChildOf]
  | node d cs =>
    unfold entityChildOf
    split <;> simp

/-- An entity freshly built by `entity_definition` has an empty
relationship list. -/
theorem entity_definition_relationships (items : List PTree) :
    (entity_definition items).relationships = [] := by
  unfold entity_definition
  simp only []
  split
  case _ cs =>
    rw [entity_children, List.filterMap_filterMap]
    refine List.filterMap_eq_nil_iff.mpr (fun t _ => ?_)
    cases hE : entityChildOf t with
    | none => rfl
    | some c =>
      cases c with
      | rel r => exact absurd hE (entityChildOf_no_rel t r)
      | prop p => rfl
      | meth m => rfl
      | api a => rfl
      | ui u => rfl
      | raw tr => rfl
  case _ => rfl

/-- A single attachment step preserves the invariant that every attached
relationship's source equals its owning entity's name. -/
theorem attachRel_preserves_inv (es : List Entity) (r : Relationship)
    (h : ∀ e ∈ es, ∀ x ∈ e.relationships, x.source_entity = e.name) :
    ∀ e ∈ attachRel es r, ∀ x ∈ e.relationships, x.source_entity = e.name := by
  induction es with
  | nil => intro e he; cases he
  | cons e es ih =>
    by_cases hname : e.name = r.source_entity
    · simp only [attachRel, if_pos hname]
      intro e' he' x hx
      rcases List.mem_cons.mp he' with he' | he'
      · subst he'
        rcases List.mem_append.mp hx with hx | hx
        · exact h e (List.mem_cons_self e es) x hx
        · rcases List.mem_singleton.mp hx with rfl
          exact hname.symm
      · exact h e' (List.mem_cons_of_mem e he') x hx
    · simp only [attachRel, if_neg hname]
      intro e' he' x hx
      rcases List.mem_cons.mp he' with he' | he'
      · subst he'; exact h e' (List.mem_cons_self e' es) x hx
      · exact ih (fun e'' he'' => h e'' (List.mem_cons_of_mem e he'')) e' he' x hx

/-- The whole attachment loop preserves the source-name invariant. -/
theorem attachRels_preserves_inv (rels : List Relationship) (es : List Entity)
    (h : ∀ e ∈ es, ∀ x ∈ e.relationships, x.source_entity = e.name) :
    ∀ e ∈ attachRels es rels, ∀ x ∈ e.relationships, x.source_entity = e.name := by
  induction rels generalizing es with
  | nil => exact h
  | cons r rels ih => exact ih (attachRel es r) (attachRel_preserves_inv es r h)

/-- Inversion of the entity dispatch: a produced entity comes from
`entity_definition`. -/
theorem entityOfTree_inv {t : PTree} {e : Entity} (h : entityOfTree t = some e) :
    ∃ items, e = entity_definition items := by
  unfold entityOfTree at h
  split at h
  · exact ⟨_, (Option.some.inj h).symm⟩
  · cases h

/-- Inversion of the context dispatch: a produced context comes from
`context_definition`. -/
theorem contextOfTree_inv {t : PTree} {bc : BoundedContext}
    (h : contextOfTree t = some bc) : ∃ items, bc = context_definition items := by
  unfold contextOfTree at h
  split at h
  · exact ⟨_, (Option.some.inj h).symm⟩
  · cases h

/-- Every entity produced by `context_definition` satisfies the
source-name invariant. -/
theorem context_definition_inv (cs : List PTree) :
    ∀ e ∈ (context_definition cs).entities, ∀ x ∈ e.relationships,
      x.source_entity = e.name := by
  unfold context_definition
  simp only []
  apply attachRels_preserves_inv
  intro e he
  rcases List.mem_filterMap.mp he with ⟨t, _, hf⟩
  rcases entityOfTree_inv hf with ⟨items, rfl⟩
  rw [entity_definition_relationships]
  intro x hx
  cases hx

/-- C10: in every model the transformer produces, every relationship held
by an entity has that entity's name as its `source_entity` — entities only
ever receive context-level relationships whose declared source matches
their name, and relationship productions inside an entity's own body are
never attached to it. -/
theorem C10_relationship_source_invariant :
    ∀ (t : PTree), ∀ bc ∈ (transform t).bounded_contexts, ∀ e ∈ bc.entities,
      ∀ r ∈ e.relationships, r.source_entity = e.name := by
  intro t bc hbc e he r hr
  have hmem : bc ∈ (match t with
      | .node "start" cs => start cs
      | other => start [other]).bounded_contexts := hbc
  have : ∃ items, bc = context_definition items := by
    revert hmem
    split <;>
      (intro hmem
       rcases List.mem_filterMap.mp hmem with ⟨t', _, hf⟩
       exact contextOfTree_inv hf)
  rcases this with ⟨items, rfl⟩
  exact context_definition_inv items e he r hr

/-- Witness for C10: in the transformed `c10Tree`, the context, its first
entity and that entity's attached relationship instantiate the invariant. -/
theorem C10_relationship_source_invariant_witness :
    c10Ctx ∈ (transform c10Tree).bounded_contexts ∧
    c10Entity ∈ c10Ctx.entities ∧
    c10Rel ∈ c10Entity.relationships ∧
    c10Rel.source_entity = c10Entity.name :=
  ⟨by decide, by decide, by decide,
   C10_relationship_source_invariant c10Tree c10Ctx (by decide) c10Entity (by decide)
     c10Rel (by decide)⟩

/-- Substring containment holds for the middle factor of a concatenation. -/
theorem strContains_intro (s pre pat post : String) (h : s = pre ++ (pat ++ post)) :
    strContains s pat := by
  subst h
  exact ⟨pre.data, post.data, by simp [strContains, String.data_append, List.append_assoc]⟩

/-- Substring containment is transitive. -/
theorem strContains_trans {a b c : String} (h1 : strContains b a) (h2 : strContains c b) :
    strContains c a := List.IsInfix.trans h1 h2

/-- A join of a non-empty message list starts with its first message. -/
theorem pyJoin_cons (sep x : String) (xs : List String) :
    ∃ z, pyJoin sep (x :: xs) = x ++ z := by
  cases xs with
  | nil => exact ⟨"", by simp [pyJoin]⟩
  | cons y ys => exact ⟨sep ++ pyJoin sep (y :: ys), by simp [pyJoin, String.append_assoc]⟩

/-- C7: validation never alters the model — whenever `_validate_model`
returns instead of raising, the model that flows on is field-for-field the
input model (the validator only reads the tree; in this embedding that
shows up as the success value being the input itself). -/
theorem C7_validation_leaves_model_unchanged :
    ∀ (m m' : DomainModel), validateModel m = .ok m' →
      m' = m ∧ m'.bounded_contexts = m.bounded_contexts := by
  intro m m' h
  simp only [validateModel] at h
  split at h
  · cases Except.ok.inj h
    exact ⟨rfl, rfl⟩
  · cases h

/-- Witness for C7: the empty model validates to itself. -/
theorem C7_validation_leaves_model_unchanged_witness :
    validateModel ⟨[]⟩ = .ok ⟨[]⟩ ∧ (⟨[]⟩ : DomainModel) = ⟨[]⟩ :=
  ⟨rfl, (C7_validation_leaves_model_unchanged ⟨[]⟩ ⟨[]⟩ rfl).1⟩

/-- C6: validation raises exactly when the combined two-pass error list is
non-empty, the raised message joins all collected messages (after the
fixed header), the model is returned unchanged when no violation exists,
and a model with a duplicate entity name, a duplicate property name and an
unknown relationship target at once gets all three messages reported
together. -/
theorem C6_batched_error_reporting :
    (∀ m : DomainModel, validateModel m = .ok m ↔ collectErrors m = []) ∧
    (∀ m : DomainModel, collectErrors m ≠ [] →
        validateModel m =
          .error ("Model validation failed:\n" ++ pyJoin "\n" (collectErrors m))) ∧
    (∃ msg, validateModel c6Model = .error msg ∧
        strContains msg "Duplicate entity name in context Ctx: E" ∧
        strContains msg "Duplicate property name in entity E: p" ∧
        strContains msg "Unknown target entity in relationship: Ghost") := by
  refine ⟨?_, ?_, ?_⟩
  · intro m
    by_cases h : collectErrors m = [] <;> simp [validateModel, h]
  · intro m h
    simp [validateModel, h]
  · refine ⟨"Model validation failed:\nDuplicate entity name in context Ctx: E\nDuplicate property name in entity E: p\nUnknown target entity in relationship: Ghost",
      rfl, by decide, by decide, by decide⟩

/-- Witness for C6: a model with one duplicate-name violation raises with
the joined message. -/
theorem C6_batched_error_reporting_witness :
    collectErrors w6Model ≠ [] ∧
    validateModel w6Model =
      .error ("Model validation failed:\n" ++ pyJoin "\n" (collectErrors w6Model)) :=
  ⟨by decide, C6_batched_error_reporting.2.1 w6Model (by decide)⟩

/-- Membership form of `dictContains`. -/
theorem dictContains_iff (d : PyDict) (k : String) :
    dictContains d k = true ↔ ∃ p ∈ d, p.1 = k := by
  simp [dictContains]

/-- A dict contains a key after that key is inserted. -/
theorem dictContains_insert_iff (d : PyDict) (k v j : String) :
    dictContains (dictInsert d k v) j = true ↔ (dictContains d j = true ∨ j = k) := by
  unfold dictInsert
  by_cases h : dictContains d k
  · simp only [if_pos h]
    rw [dictContains_iff, dictContains_iff]
    constructor
    · rintro ⟨p, hp, hpj⟩
      rcases List.mem_map.mp hp with ⟨q, hq, rfl⟩
      by_cases hqk : q.1 = k
      · simp only [if_pos hqk] at hpj
        exact Or.inr hpj.symm
      · simp only [if_neg hqk] at hpj
        exact Or.inl ⟨q, hq, hpj⟩
    · intro hOr
      rcases hOr with ⟨p, hp, hpj⟩ | hjk
      · by_cases hpk : p.1 = k
        · refine ⟨(k, v), List.mem_map.mpr ⟨p, hp, by simp [hpk]⟩, ?_⟩
          exact hpk ▸ hpj
        · exact ⟨p, List.mem_map.mpr ⟨p, hp, by simp [hpk]⟩, hpj⟩
      · subst hjk
        rcases (dictContains_iff d j).mp h with ⟨p, hp, hpk⟩
        exact ⟨(j, v), List.mem_map.mpr ⟨p, hp, by simp [hpk]⟩, rfl⟩
  · simp only [if_neg h]
    rw [dictContains_iff, dictContains_iff]
    constructor
    · rintro ⟨p, hp, hpj⟩
      rcases List.mem_append.mp hp with hp | hp
      · exact Or.inl ⟨p, hp, hpj⟩
      · rcases List.mem_singleton.mp hp with rfl
        exact Or.inr hpj.symm
    · intro hOr
      rcases hOr with ⟨p, hp, hpj⟩ | hjk
      · exact ⟨p, List.mem_append_left _ hp, hpj⟩
      · subst hjk
        exact ⟨(j, v), List.mem_append_right _ (List.mem_singleton_self _), rfl⟩

/-- Inserting a key makes it present. -/
theorem dictContains_insert_self (d : PyDict) (k v : String) :
    dictContains (dictInsert d k v) k = true :=
  (dictContains_insert_iff d k v k).mpr (Or.inr rfl)

/-- Insertion preserves presence of other keys. -/
theorem dictContains_insert_of (d : PyDict) (k v j : String)
    (h : dictContains d j = true) : dictContains (dictInsert d k v) j = true :=
  (dictContains_insert_iff d k v j).mpr (Or.inl h)

/-- Registering `k` copies of an already-present name appends `k` duplicate
errors. -/
theorem registerLoop_replicate_present (mkErr : String → String) (kind n : String)
    (k : Nat) :
    ∀ (names : PyDict) (errors : List String), dictContains names n = true →
      (registerLoop mkErr kind names errors (List.replicate k n)).2 =
        errors ++ List.replicate k (mkErr n) := by
  induction k with
  | zero => intro names errors _; simp [registerLoop]
  | succ k ih =>
    intro names errors h
    rw [List.replicate_succ]
    simp only [registerLoop, if_pos h]
    rw [ih _ _ (dictContains_insert_self names n kind)]
    simp [List.replicate_succ, List.append_assoc]

/-- Registering one fresh copy and then `k` further copies of a name
appends exactly `k` duplicate errors. -/
theorem registerLoop_replicate_fresh (mkErr : String → String) (kind n : String)
    (k : Nat) (names : PyDict) (errors : List String)
    (h : dictContains names n = false) :
    (registerLoop mkErr kind names errors (List.replicate (k + 1) n)).2 =
      errors ++ List.replicate k (mkErr n) := by
  rw [List.replicate_succ]
  simp only [registerLoop, h, Bool.false_eq_true, if_false]
  exact registerLoop_replicate_present mkErr kind n k _ _
    (dictContains_insert_self names n kind)

/-- A bare-named entity contributes no second-pass error. -/
theorem foldl_checkEntity_mkEntity (reg : PyDict) (e : String) (k : Nat) :
    ∀ errors, (List.replicate k (mkEntity e)).foldl (checkEntity reg) errors = errors := by
  induction k with
  | zero => intro errors; rfl
  | succ k ih =>
    intro errors
    rw [List.replicate_succ, List.foldl_cons]
    exact ih errors

/-- C4: validating a model whose single bounded context holds `n` entities
sharing one name (distinct from the context name) collects exactly `n - 1`
duplicate-name errors for that name, and the raised failure message
contains both the text `Duplicate entity name` and the context's name. -/
theorem C4_duplicate_entity_name_errors :
    ∀ (n : Nat) (c e : String), 2 ≤ n → c ≠ e →
      collectErrors (dupNameModel c e n) =
        List.replicate (n - 1) ("Duplicate entity name in context " ++ c ++ ": " ++ e) ∧
      ∃ msg, validateModel (dupNameModel c e n) = .error msg ∧
        strContains msg "Duplicate entity name" ∧ strContains msg c := by
  intro n c e hn hce
  obtain ⟨k, rfl⟩ : ∃ k, n = k + 2 := ⟨n - 2, by omega⟩
  have hc0 : dictContains [] c = false := rfl
  have he0 : dictContains (dictInsert [] c "context") e = false := by
    simp [dictInsert, dictContains, hce]
  have hcontexts : validateContexts (dupNameModel c e (k + 2)) =
      List.replicate (k + 1) ("Duplicate entity name in context " ++ c ++ ": " ++ e) := by
    unfold dupNameModel validateContexts
    simp only [validateContextsLoop, hc0, Bool.false_eq_true, if_false,
      List.map_replicate, List.map_nil]
    rw [show (mkEntity e).name = e from rfl]
    rw [show k + 2 = k + 1 + 1 from rfl]
    rw [registerLoop_replicate_fresh _ "entity" e (k + 1) _ _ he0]
    simp [registerLoop, validateContextsLoop]
  have hentities : validateEntities (dupNameModel c e (k + 2)) = [] := by
    unfold dupNameModel validateEntities
    simp only [List.foldl_cons, List.foldl_nil]
    exact foldl_checkEntity_mkEntity _ e (k + 2) []
  have hcollect : collectErrors (dupNameModel c e (k + 2)) =
      List.replicate (k + 1) ("Duplicate entity name in context " ++ c ++ ": " ++ e) := by
    unfold collectErrors
    rw [hcontexts, hentities, List.append_nil]
  refine ⟨by simpa using hcollect, ?_⟩
  obtain ⟨z, hz⟩ := pyJoin_cons "\n"
    ("Duplicate entity name in context " ++ c ++ ": " ++ e)
    (List.replicate k ("Duplicate entity name in context " ++ c ++ ": " ++ e))
  refine ⟨"Model validation failed:\n" ++
      pyJoin "\n" (collectErrors (dupNameModel c e (k + 2))), ?_, ?_, ?_⟩
  · simp [validateModel, hcollect, List.replicate_succ]
  · apply strContains_intro _ "Model validation failed:\n" "Duplicate entity name"
      (" in context " ++ (c ++ (": " ++ (e ++ z))))
    rw [hcollect, List.replicate_succ, hz]
    rw [show ∀ X : String, "Duplicate entity name" ++ (" in context " ++ X) =
      "Duplicate entity name in context " ++ X from fun X => by
        rw [← String.append_assoc]; rfl]
    simp [String.append_assoc]
  · apply strContains_intro _
      ("Model validation failed:\n" ++ "Duplicate entity name in context ") c
      (": " ++ (e ++ z))
    rw [hcollect, List.replicate_succ, hz]
    simp only [String.append_assoc]

/-- Witness for C4: three same-named entities in one context produce
exactly two duplicate errors, and the failure message contains the marker
text and the context name. -/
theorem C4_duplicate_entity_name_errors_witness :
    (2 ≤ 3 ∧ ("Ctx" : String) ≠ "E") ∧
    (collectErrors (dupNameModel "Ctx" "E" 3) =
        List.replicate 2 ("Duplicate entity name in context " ++ "Ctx" ++ ": " ++ "E") ∧
      ∃ msg, validateModel (dupNameModel "Ctx" "E" 3) = .error msg ∧
        strContains msg "Duplicate entity name" ∧ strContains msg "Ctx") :=
  ⟨⟨by decide, by decide⟩,
   C4_duplicate_entity_name_errors 3 "Ctx" "E" (by decide) (by decide)⟩

/-- The relationship loop only appends to the error list it is given. -/
theorem checkRels_append (reg : PyDict) (rs : List Relationship) :
    ∀ errors, checkRels reg errors rs = errors ++ checkRels reg [] rs := by
  induction rs with
  | nil => intro errors; simp [checkRels]
  | cons r rs ih =>
    intro errors
    by_cases h : dictContains reg r.target_entity = true
    · simp only [checkRels, if_pos h]
      exact ih errors
    · simp only [checkRels, if_neg h]
      rw [ih (errors ++ _), ih ([] ++ _)]
      simp [List.append_assoc]

/-- The property loop's seen-set is independent of the error accumulator,
and its errors only extend the accumulator. -/
theorem checkProps_append (en : String) (ps : List Property) :
    ∀ (seen errors : List String),
      (checkProps en seen errors ps).1 = (checkProps en seen [] ps).1 ∧
      (checkProps en seen errors ps).2 = errors ++ (checkProps en seen [] ps).2 := by
  induction ps with
  | nil => intro seen errors; simp [checkProps]
  | cons p ps ih =>
    intro seen errors
    by_cases h : seen.contains p.name = true
    · simp only [checkProps, if_pos h]
      refine ⟨((ih _ (errors ++ _)).1).trans ((ih _ ([] ++ _)).1).symm, ?_⟩
      rw [(ih _ (errors ++ _)).2, (ih _ ([] ++ _)).2]
      simp [List.append_assoc]
    · simp only [checkProps, if_neg h]
      exact ih _ errors

/-- The per-entity check only appends to the error list it is given. -/
theorem checkEntity_append (reg : PyDict) (errors : List String) (e : Entity) :
    checkEntity reg errors e = errors ++ checkEntity reg [] e := by
  unfold checkEntity
  rw [checkRels_append reg e.relationships, (checkProps_append e.name e.properties [] errors).2,
    checkRels_append reg e.relationships ((checkProps e.name [] [] e.properties).2)]
  simp [List.append_assoc]

/-- The per-entity errors are the duplicate-property errors followed by the
unknown-target errors. -/
theorem checkEntity_decomp (reg : PyDict) (e : Entity) :
    checkEntity reg [] e =
      (checkProps e.name [] [] e.properties).2 ++ checkRels reg [] e.relationships := by
  unfold checkEntity
  rw [checkRels_append]

/-- The entity fold only appends to the error list it is given. -/
theorem foldl_checkEntity_append (reg : PyDict) (es : List Entity) :
    ∀ errors, es.foldl (checkEntity reg) errors = errors ++ es.foldl (checkEntity reg) [] := by
  induction es with
  | nil => intro errors; simp
  | cons e es ih =>
    intro errors
    rw [List.foldl_cons, List.foldl_cons, ih (checkEntity reg errors e),
      ih (checkEntity reg [] e), checkEntity_append]
    simp [List.append_assoc]

/-- Membership in the entity fold's errors. -/
theorem mem_foldl_checkEntity (reg : PyDict) (es : List Entity) (msg : String) :
    msg ∈ es.foldl (checkEntity reg) [] ↔ ∃ e ∈ es, msg ∈ checkEntity reg [] e := by
  induction es with
  | nil => simp
  | cons e es ih =>
    rw [List.foldl_cons, foldl_checkEntity_append reg es (checkEntity reg [] e)]
    constructor
    · intro hm
      rcases List.mem_append.mp hm with hm | hm
      · exact ⟨e, List.mem_cons_self e es, hm⟩
      · rcases ih.mp hm with ⟨e', he', hm'⟩
        exact ⟨e', List.mem_cons_of_mem _ he', hm'⟩
    · rintro ⟨e', he', hm⟩
      rcases List.mem_cons.mp he' with rfl | he'
      · exact List.mem_append.mpr (Or.inl hm)
      · exact List.mem_append.mpr (Or.inr (ih.mpr ⟨e', he', hm⟩))

/-- The context fold only appends to the error list it is given. -/
theorem foldl_ctxs_append (reg : PyDict) (ctxs : List BoundedContext) :
    ∀ errors,
      ctxs.foldl (fun errs ctx => ctx.entities.foldl (checkEntity reg) errs) errors =
        errors ++ ctxs.foldl (fun errs ctx => ctx.entities.foldl (checkEntity reg) errs) [] := by
  induction ctxs with
  | nil => intro errors; simp
  | cons ctx ctxs ih =>
    intro errors
    rw [List.foldl_cons, List.foldl_cons, ih (ctx.entities.foldl (checkEntity reg) errors),
      ih (ctx.entities.foldl (checkEntity reg) []), foldl_checkEntity_append]
    simp [List.append_assoc]

/-- Membership in the context fold's errors. -/
theorem mem_foldl_ctxs (reg : PyDict) (ctxs : List BoundedContext) (msg : String) :
    msg ∈ ctxs.foldl (fun errs ctx => ctx.entities.foldl (checkEntity reg) errs) [] ↔
      ∃ ctx ∈ ctxs, ∃ e ∈ ctx.entities, msg ∈ checkEntity reg [] e := by
  induction ctxs with
  | nil => simp
  | cons ctx ctxs ih =>
    rw [List.foldl_cons, foldl_ctxs_append reg ctxs (ctx.entities.foldl (checkEntity reg) [])]
    constructor
    · intro hm
      rcases List.mem_append.mp hm with hm | hm
      · rcases (mem_foldl_checkEntity reg ctx.entities msg).mp hm with ⟨e, he, hm'⟩
        exact ⟨ctx, List.mem_cons_self ctx ctxs, e, he, hm'⟩
      · rcases ih.mp hm with ⟨ctx', hctx', e', he', hm'⟩
        exact ⟨ctx', List.mem_cons_of_mem _ hctx', e', he', hm'⟩
    · rintro ⟨ctx', hctx', e', he', hm⟩
      rcases List.mem_cons.mp hctx' with rfl | hctx'
      · exact List.mem_append.mpr
          (Or.inl ((mem_foldl_checkEntity reg ctx'.entities msg).mpr ⟨e', he', hm⟩))
      · exact List.mem_append.mpr (Or.inr (ih.mpr ⟨ctx', hctx', e', he', hm⟩))

/-- Membership in the second-pass errors. -/
theorem mem_validateEntities (m : DomainModel) (msg : String) :
    msg ∈ validateEntities m ↔
      ∃ ctx ∈ m.bounded_contexts, ∃ e ∈ ctx.entities,
        msg ∈ checkEntity (entityRegistry m) [] e := by
  unfold validateEntities
  exact mem_foldl_ctxs (entityRegistry m) m.bounded_contexts msg

/-- Membership in the unknown-target errors of one relationship list. -/
theorem mem_checkRels (reg : PyDict) (rs : List Relationship) (msg : String) :
    msg ∈ checkRels reg [] rs ↔
      ∃ r ∈ rs, dictContains reg r.target_entity = false ∧
        msg = unknownTargetMsg r.target_entity := by
  induction rs with
  | nil => simp [checkRels]
  | cons r rs ih =>
    by_cases h : dictContains reg r.target_entity = true
    · simp only [checkRels, if_pos h]
      rw [ih]
      constructor
      · rintro ⟨r', hr', hmsg⟩
        exact ⟨r', List.mem_cons_of_mem _ hr', hmsg⟩
      · rintro ⟨r', hr', hfalse, hmsg⟩
        rcases List.mem_cons.mp hr' with rfl | hr'
        · rw [h] at hfalse; cases hfalse
        · exact ⟨r', hr', hfalse, hmsg⟩
    · have hf : dictContains reg r.target_entity = false := by
        revert h; cases dictContains reg r.target_entity <;> simp
      simp only [checkRels, if_neg h]
      rw [checkRels_append reg rs]
      constructor
      · intro hm
        rcases List.mem_append.mp hm with hm | hm
        · have : msg = "Unknown target entity in relationship: " ++ r.target_entity := by
            simpa using hm
          exact ⟨r, List.mem_cons_self r rs, hf, this⟩
        · rcases ih.mp hm with ⟨r', hr', hmsg⟩
          exact ⟨r', List.mem_cons_of_mem _ hr', hmsg⟩
      · rintro ⟨r', hr', hfalse, hmsg⟩
        rcases List.mem_cons.mp hr' with rfl | hr'
        · exact List.mem_append.mpr (Or.inl (by simp [hmsg, unknownTargetMsg]))
        · exact List.mem_append.mpr (Or.inr (ih.mpr ⟨r', hr', hfalse, hmsg⟩))

/-- Duplicate messages of the `mid ++ name ++ ": " ++ n` shape start with
`Duplicate `. -/
theorem dupMsg_shape (mid c n : String) :
    ∃ x, "Duplicate " ++ mid ++ c ++ ": " ++ n = "Duplicate " ++ x :=
  ⟨mid ++ (c ++ (": " ++ n)), by simp [String.append_assoc]⟩

/-- Every duplicate-property error message starts with `Duplicate `. -/
theorem checkProps_shape (en : String) (ps : List Property) :
    ∀ seen, ∀ msg ∈ (checkProps en seen [] ps).2, ∃ x, msg = "Duplicate " ++ x := by
  induction ps with
  | nil => intro seen msg hm; simp [checkProps] at hm
  | cons p ps ih =>
    intro seen msg hm
    by_cases h : seen.contains p.name = true
    · simp only [checkProps, if_pos h] at hm
      rw [(checkProps_append en ps (p.name :: seen) ([] ++ _)).2] at hm
      rcases List.mem_append.mp hm with hm | hm
      · have hmsg : msg = "Duplicate property name in entity " ++ en ++ ": " ++ p.name := by
          simpa using hm
        rw [hmsg, show ("Duplicate property name in entity " : String) =
          "Duplicate " ++ "property name in entity " from rfl]
        exact dupMsg_shape "property name in entity " en p.name
      · exact ih (p.name :: seen) msg hm
    · simp only [checkProps, if_neg h] at hm
      exact ih (p.name :: seen) msg hm

/-- Messages of one registration loop satisfy a predicate that holds of the
incoming errors and of every generated message. -/
theorem registerLoop_shape {P : String → Prop} (mkErr : String → String) (kind : String) :
    ∀ (l : List String) (names : PyDict) (errors : List String),
      (∀ n, P (mkErr n)) → (∀ msg ∈ errors, P msg) →
      ∀ msg ∈ (registerLoop mkErr kind names errors l).2, P msg := by
  intro l
  induction l with
  | nil => intro names errors _ he msg hm; exact he msg hm
  | cons n rest ih =>
    intro names errors hP he msg hm
    simp only [registerLoop] at hm
    refine ih _ _ hP ?_ msg hm
    intro m hm'
    by_cases h : dictContains names n = true
    · rw [if_pos h] at hm'
      rcases List.mem_append.mp hm' with hm' | hm'
      · exact he m hm'
      · rcases List.mem_singleton.mp hm' with rfl
        exact hP n
    · rw [if_neg h] at hm'
      exact he m hm'

/-- Every first-pass error message starts with `Duplicate `. -/
theorem validateContextsLoop_shape :
    ∀ (ctxs : List BoundedContext) (names : PyDict) (errors : List String),
      (∀ msg ∈ errors, ∃ x, msg = "Duplicate " ++ x) →
      ∀ msg ∈ (validateContextsLoop names errors ctxs).2, ∃ x, msg = "Duplicate " ++ x := by
  intro ctxs
  induction ctxs with
  | nil => intro names errors he msg hm; exact he msg hm
  | cons ctx rest ih =>
    intro names errors he msg hm
    simp only [validateContextsLoop] at hm
    refine ih _ _ ?_ msg hm
    refine registerLoop_shape _ _ _ _ _
      (fun n => by
        rw [show ("Duplicate repository name in context " : String) =
          "Duplicate " ++ "repository name in context " from rfl]
        exact dupMsg_shape "repository name in context " ctx.name n) ?_
    refine registerLoop_shape _ _ _ _ _
      (fun n => by
        rw [show ("Duplicate service name in context " : String) =
          "Duplicate " ++ "service name in context " from rfl]
        exact dupMsg_shape "service name in context " ctx.name n) ?_
    refine registerLoop_shape _ _ _ _ _
      (fun n => by
        rw [show ("Duplicate value object name in context " : String) =
          "Duplicate " ++ "value object name in context " from rfl]
        exact dupMsg_shape "value object name in context " ctx.name n) ?_
    refine registerLoop_shape _ _ _ _ _
      (fun n => by
        rw [show ("Duplicate entity name in context " : String) =
          "Duplicate " ++ "entity name in context " from rfl]
        exact dupMsg_shape "entity name in context " ctx.name n) ?_
    intro m hm'
    by_cases h : dictContains names ctx.name = true
    · rw [if_pos h] at hm'
      rcases List.mem_append.mp hm' with hm' | hm'
      · exact he m hm'
      · rcases List.mem_singleton.mp hm' with rfl
        refine ⟨"bounded context name: " ++ ctx.name, ?_⟩
        rw [← String.append_assoc]
        rfl
    · rw [if_neg h] at hm'
      exact he m hm'

/-- Every first-pass error of a model starts with `Duplicate `. -/
theorem validateContexts_shape (m : DomainModel) :
    ∀ msg ∈ validateContexts m, ∃ x, msg = "Duplicate " ++ x := by
  unfold validateContexts
  exact validateContextsLoop_shape m.bounded_contexts [] []
    (fun msg hm => absurd hm (List.not_mem_nil msg))

/-- An unknown-target message never coincides with a duplicate message. -/
theorem unknown_ne_dup (t x : String) : unknownTargetMsg t ≠ "Duplicate " ++ x := by
  intro h
  have h2 := congrArg String.data h
  simp only [unknownTargetMsg, String.data_append] at h2
  rw [List.cons_append, List.cons_append] at h2
  injection h2 with h3 _
  exact absurd h3 (by decide)

/-- The unknown-target message determines its target name. -/
theorem unknownTargetMsg_inj {t t' : String}
    (h : unknownTargetMsg t = unknownTargetMsg t') : t = t' := by
  have h2 := congrArg String.data h
  simp only [unknownTargetMsg, String.data_append] at h2
  exact String.ext (List.append_cancel_left h2)

/-- Presence in the fold of entity-name insertions. -/
theorem foldl_insert_contains (es : List Entity) :
    ∀ (d : PyDict) (n : String),
      dictContains (es.foldl (fun ns e => dictInsert ns e.name "entity") d) n = true ↔
        (dictContains d n = true ∨ ∃ e ∈ es, e.name = n) := by
  induction es with
  | nil => intro d n; simp
  | cons e es ih =>
    intro d n
    rw [List.foldl_cons, ih, dictContains_insert_iff]
    constructor
    · rintro ((h | h) | h)
      · exact Or.inl h
      · exact Or.inr ⟨e, List.mem_cons_self e es, h.symm⟩
      · rcases h with ⟨e', he', hn⟩
        exact Or.inr ⟨e', List.mem_cons_of_mem _ he', hn⟩
    · rintro (h | ⟨e', he', hn⟩)
      · exact Or.inl (Or.inl h)
      · rcases List.mem_cons.mp he' with rfl | he'
        · exact Or.inl (Or.inr hn.symm)
        · exact Or.inr ⟨e', he', hn⟩

/-- The pass-1 registry of `_validate_entities` holds exactly the entity
names declared anywhere in the model. -/
theorem dictContains_entityRegistry (m : DomainModel) (n : String) :
    dictContains (entityRegistry m) n = true ↔
      ∃ ctx ∈ m.bounded_contexts, ∃ e ∈ ctx.entities, e.name = n := by
  unfold entityRegistry
  have main : ∀ (ctxs : List BoundedContext) (d : PyDict),
      dictContains (ctxs.foldl
        (fun names ctx => ctx.entities.foldl (fun ns e => dictInsert ns e.name "entity") names) d)
        n = true ↔
        (dictContains d n = true ∨ ∃ ctx ∈ ctxs, ∃ e ∈ ctx.entities, e.name = n) := by
    intro ctxs
    induction ctxs with
    | nil => intro d; simp
    | cons ctx rest ih =>
      intro d
      rw [List.foldl_cons, ih, foldl_insert_contains]
      constructor
      · rintro ((h | ⟨e, he, hn⟩) | ⟨ctx', hctx', e', he', hn⟩)
        · exact Or.inl h
        · exact Or.inr ⟨ctx, List.mem_cons_self ctx rest, e, he, hn⟩
        · exact Or.inr ⟨ctx', List.mem_cons_of_mem _ hctx', e', he', hn⟩
      · rintro (h | ⟨ctx', hctx', e', he', hn⟩)
        · exact Or.inl (Or.inl h)
        · rcases List.mem_cons.mp hctx' with rfl | hctx'
          · exact Or.inl (Or.inr ⟨e', he', hn⟩)
          · exact Or.inr ⟨ctx', hctx', e', he', hn⟩
  refine (main m.bounded_contexts []).trans ?_
  simp [dictContains]

/-- C5: validation reports the unknown-target error naming the identifier
for every relationship (wherever attached) whose target name is absent
from the pass-1 registry of declared entity names, and reports no such
error for a relationship whose target is present; the registry holds
exactly the entity names declared anywhere in the model. -/
theorem C5_unknown_target_reporting :
    (∀ (m : DomainModel) (n : String),
        dictContains (entityRegistry m) n = true ↔
          ∃ ctx ∈ m.bounded_contexts, ∃ e ∈ ctx.entities, e.name = n) ∧
    (∀ (m : DomainModel) (ctx : BoundedContext) (e : Entity) (r : Relationship),
        ctx ∈ m.bounded_contexts → e ∈ ctx.entities → r ∈ e.relationships →
        (dictContains (entityRegistry m) r.target_entity = false →
            unknownTargetMsg r.target_entity ∈ collectErrors m) ∧
        (dictContains (entityRegistry m) r.target_entity = true →
            unknownTargetMsg r.target_entity ∉ collectErrors m)) := by
  refine ⟨dictContains_entityRegistry, ?_⟩
  intro m ctx e r hctx he hr
  constructor
  · intro hfalse
    unfold collectErrors
    refine List.mem_append_right _ ?_
    rw [mem_validateEntities]
    refine ⟨ctx, hctx, e, he, ?_⟩
    rw [checkEntity_decomp]
    exact List.mem_append_right _ ((mem_checkRels _ _ _).mpr ⟨r, hr, hfalse, rfl⟩)
  · intro htrue hmem
    unfold collectErrors at hmem
    rcases List.mem_append.mp hmem with hmem | hmem
    · rcases validateContexts_shape m _ hmem with ⟨x, hx⟩
      exact unknown_ne_dup r.target_entity x hx
    · rcases (mem_validateEntities m _).mp hmem with ⟨ctx', _, e', _, hmem'⟩
      rw [checkEntity_decomp] at hmem'
      rcases List.mem_append.mp hmem' with hmem' | hmem'
      · rcases checkProps_shape e'.name e'.properties [] _ hmem' with ⟨x, hx⟩
        exact unknown_ne_dup r.target_entity x hx
      · rcases (mem_checkRels _ _ _).mp hmem' with ⟨r', _, hf, hmsg⟩
        rw [unknownTargetMsg_inj hmsg] at htrue
        rw [htrue] at hf
        cases hf

/-- Witness for C5: in `c5Model` the dangling target `Phantom` is reported
and the declared target `E2` is not. -/
theorem C5_unknown_target_reporting_witness :
    (dictContains (entityRegistry c5Model) "Phantom" = false ∧
      unknownTargetMsg "Phantom" ∈ collectErrors c5Model) ∧
    (dictContains (entityRegistry c5Model) "E2" = true ∧
      unknownTargetMsg "E2" ∉ collectErrors c5Model) :=
  ⟨⟨by decide,
    (C5_unknown_target_reporting.2 c5Model
      { name := "C5"
        entities := [
          { name := "E1"
            relationships := [⟨"E1", "Phantom", "->", Option.none⟩,
                              ⟨"E1", "E2", "=>", Option.none⟩] },
          { name := "E2" }] }
      { name := "E1"
        relationships := [⟨"E1", "Phantom", "->", Option.none⟩,
                          ⟨"E1", "E2", "=>", Option.none⟩] }
      ⟨"E1", "Phantom", "->", Option.none⟩
      (by decide) (by decide) (by decide)).1 (by decide)⟩,
   ⟨by decide,
    (C5_unknown_target_reporting.2 c5Model
      { name := "C5"
        entities := [
          { name := "E1"
            relationships := [⟨"E1", "Phantom", "->", Option.none⟩,
                              ⟨"E1", "E2", "=>", Option.none⟩] },
          { name := "E2" }] }
      { name := "E1"
        relationships := [⟨"E1", "Phantom", "->", Option.none⟩,
                          ⟨"E1", "E2", "=>", Option.none⟩] }
      ⟨"E1", "E2", "=>", Option.none⟩
      (by decide) (by decide) (by decide)).2 (by decide)⟩⟩

end DomainForge
